import Mathlib

/-
  Verification development for the knowledge-graph visualization repository.

  The core under study is src/components/GraphCanvas.tsx: a React component
  that feeds GraphData into a d3 force simulation, attaches zoom/drag
  behaviors, and renders nodes/links into an SVG.  The definitions below are
  a shallow embedding of that component together with the d3-force / d3-zoom
  primitives it configures (forceSimulation alpha schedule, forceLink id
  resolution, the tick integrator with fx/fy pinning, the zoom transform with
  scaleExtent clamping).  Numeric JS values are modelled as rationals (reals
  where the source uses trigonometric functions).
-/

set_option maxHeartbeats 1000000

/-! ## Data model (src: types module — EntityType, Node, Link, GraphData) -/

inductive EntityType
  | person
  | concept
  | data
  | method
  | organization
  | unknown
deriving DecidableEq, Repr

structure Node where
  id : String
  label : String
  type : EntityType
  description : String
deriving DecidableEq, Repr

/-- A link as ingested: source/target are raw node-id strings
    (the Gemini schema emits strings; d3 resolves them once at setup). -/
structure Link where
  source : String
  target : String
  label : String
  strength : ℚ
deriving DecidableEq, Repr

structure GraphData where
  nodes : List Node
  links : List Link
deriving DecidableEq, Repr

/-- TYPE_COLORS table from GraphCanvas.tsx lines 12-19. -/
def TYPE_COLORS : EntityType → String
  | .person => "#ec4899"
  | .concept => "#3b82f6"
  | .data => "#10b981"
  | .method => "#f59e0b"
  | .organization => "#8b5cf6"
  | .unknown => "#64748b"

/-! ## Simulation alpha schedule (d3-force simulation.js, as configured in
    GraphCanvas.tsx lines 47-51: all alpha parameters left at d3 defaults). -/

/-- d3-force default alphaMin = 0.001. -/
def alphaMin : ℚ := 1 / 1000

/-- d3-force default alphaDecay = 1 − alphaMin^(1/300), a real in (0, 1);
    the schedule theorems take the decay rate as a parameter in (0, 1). -/
noncomputable def alphaDecayDefault : ℝ :=
  1 - (1 / 1000 : ℝ) ^ ((1 : ℝ) / 300)

structure SimState where
  alpha : ℚ
  alphaTarget : ℚ
  stopped : Bool
  ticks : ℕ
deriving DecidableEq, Repr

/-- A freshly constructed d3.forceSimulation: alpha = 1, alphaTarget = 0,
    internal timer started (not stopped), no ticks run yet. -/
def freshSim : SimState :=
  { alpha := 1, alphaTarget := 0, stopped := false, ticks := 0 }

/-- One stepper frame of d3-force: if the stepper is stopped nothing runs;
    otherwise tick() updates alpha by alpha += (alphaTarget - alpha) * alphaDecay
    and then the stepper stops itself when alpha < alphaMin. -/
def stepSim (decay : ℚ) (s : SimState) : SimState :=
  if s.stopped then s
  else
    let a := s.alpha + (s.alphaTarget - s.alpha) * decay
    { alpha := a, alphaTarget := s.alphaTarget,
      stopped := decide (a < alphaMin), ticks := s.ticks + 1 }

/-- simulation.stop() — stops the internal stepper timer. -/
def stopSim (s : SimState) : SimState := { s with stopped := true }

/-- The simulation state after n stepper frames from construction. -/
def simRun (decay : ℚ) (n : ℕ) : SimState := Nat.iterate (stepSim decay) n freshSim

/-- The effect cleanup returned at GraphCanvas.tsx lines 150-152:
    it calls simulation.stop(). -/
def effectCleanup (s : SimState) : SimState := stopSim s

/-! ## Link resolution (d3-force link.js initialize, configured with
    .id(d => d.id) at GraphCanvas.tsx line 48).  d3 builds a Map from node id
    to node (later entries overwrite earlier ones) and replaces each string
    source/target by the found node, throwing
    "node not found: " + nodeId on a dangling id. -/

/-- A resolved link: source/target hold the index of the resolved node. -/
structure RLink where
  source : ℕ
  target : ℕ
  label : String
  strength : ℚ
deriving DecidableEq, Repr

/-- Association pairs (id, index) in node order starting at index i. -/
def indexPairs : List Node → ℕ → List (String × ℕ)
  | [], _ => []
  | n :: ns, i => (n.id, i) :: indexPairs ns (i + 1)

/-- The nodeById map: JS Map semantics let the last entry for a duplicate id
    win, so lookup searches the reversed association list. -/
def nodeById (nodes : List Node) : List (String × ℕ) :=
  (indexPairs nodes 0).reverse

/-- d3-force link.js `find`: returns the mapped node or throws
    "node not found: " + nodeId. -/
def findNode (m : List (String × ℕ)) (nodeId : String) : Except String ℕ :=
  match List.lookup nodeId m with
  | some idx => .ok idx
  | none => .error ("node not found: " ++ nodeId)

/-- Resolve every link's source then target, in link order, failing on the
    first dangling id (d3-force link.js initialize loop). -/
def resolveLinks (m : List (String × ℕ)) : List Link → Except String (List RLink)
  | [] => .ok []
  | l :: ls =>
    match findNode m l.source with
    | .error e => .error e
    | .ok s =>
      match findNode m l.target with
      | .error e => .error e
      | .ok t =>
        match resolveLinks m ls with
        | .error e => .error e
        | .ok rs => .ok (⟨s, t, l.label, l.strength⟩ :: rs)

structure Engine where
  nodes : List Node
  links : List RLink
  sim : SimState
deriving DecidableEq, Repr

/-- Outcome of the construction section of the effect body (lines 47-51).
    On a resolution failure the exception carries the error message, but the
    simulation created by d3.forceSimulation(data.nodes) in the same chain
    has already been started: its stepper is running, nodes are initialized,
    and — because the throw happens before the tick handler (line 118) is
    attached and before the cleanup (lines 150-152) is registered — that
    started simulation is leaked, with nothing ever calling stop() on it. -/
inductive ConstructResult
  | ok (e : Engine)
  | failed (err : String) (leaked : SimState)
deriving DecidableEq, Repr

/-- Engine construction (GraphCanvas.tsx lines 47-51).  The chain evaluates
    in source order: d3.forceSimulation(data.nodes) first creates and starts
    the simulation (stepper running, alpha 1), then .force("link", ...) runs
    forceLink's initialize, which resolves link ids and throws on a dangling
    one.  So on failure the already-started simulation escapes as `leaked`;
    on success it becomes the engine's simulation. -/
def construct (gd : GraphData) : ConstructResult :=
  let sim := freshSim
  match resolveLinks (nodeById gd.nodes) gd.links with
  | .error e => .failed e sim
  | .ok rls => .ok ⟨gd.nodes, rls, sim⟩

/-! ## The effect guard (GraphCanvas.tsx line 26):
    `if (!svgRef.current || !data.nodes.length) return;` -/

inductive EffectOutcome
  | noop
  | built (r : ConstructResult)
deriving DecidableEq, Repr

/-- The body of the GraphCanvas useEffect, at the granularity of the claims:
    early-return when the svg ref is absent or the node list is empty,
    otherwise construct the engine (which performs link validation). -/
def runEffect (svgPresent : Bool) (gd : GraphData) : EffectOutcome :=
  if !svgPresent || gd.nodes.length == 0 then .noop
  else .built (construct gd)

/-! ## Zoom behavior (GraphCanvas.tsx lines 38-44, d3-zoom).
    The scale extent is [0.1, 4]; d3-zoom's internal `scale` helper clamps a
    requested scale k into the extent before building the new transform, and
    `translate` recomputes the translation keeping a pointer fixed.  The zoom
    handler (line 41) only writes the transform onto the `g` element's
    transform attribute — it never touches node coordinates. -/

structure ZoomTransform where
  k : ℚ
  x : ℚ
  y : ℚ
deriving DecidableEq, Repr

/-- d3.zoomIdentity: k = 1, x = 0, y = 0. -/
def zoomIdentity : ZoomTransform := ⟨1, 0, 0⟩

/-- `.scaleExtent([0.1, 4])` from line 39. -/
def scaleExtentLo : ℚ := 1 / 10

def scaleExtentHi : ℚ := 4

/-- d3-zoom `scale(transform, k)`: clamp k into the scale extent, keep the
    translation. -/
def constrainScale (t : ZoomTransform) (k : ℚ) : ZoomTransform :=
  ⟨max scaleExtentLo (min scaleExtentHi k), t.x, t.y⟩

/-- d3-zoom `translate(transform, p0, p1)`: translation such that p1 maps to
    p0 under the (unchanged) scale. -/
def translateTo (t : ZoomTransform) (p0 p1 : ℚ × ℚ) : ZoomTransform :=
  ⟨t.k, p0.1 - p1.1 * t.k, p0.2 - p1.2 * t.k⟩

/-- Transform.invert: map a screen point back to simulated coordinates. -/
def invertPoint (t : ZoomTransform) (p : ℚ × ℚ) : ℚ × ℚ :=
  ((p.1 - t.x) / t.k, (p.2 - t.y) / t.k)

/-- One pointer input gesture consumed by the zoom behavior: a scale gesture
    (wheel / double-click / pinch) multiplying the current scale by an
    arbitrary factor at pointer p, or a pan moving pointer p1 to p0. -/
inductive ZoomEvent
  | scaleBy (factor : ℚ) (p : ℚ × ℚ)
  | pan (p0 p1 : ℚ × ℚ)
deriving DecidableEq, Repr

/-- d3-zoom gesture handling: a scale gesture applies
    translate(scale(t, t.k * factor), p, t.invert(p)); a pan applies
    translate(t, p0, p1) leaving the scale untouched. -/
def applyZoomEvent (t : ZoomTransform) : ZoomEvent → ZoomTransform
  | .scaleBy f p => translateTo (constrainScale t (t.k * f)) p (invertPoint t p)
  | .pan p0 p1 => translateTo t p0 p1

/-- The viewport transform after a whole sequence of pan/zoom inputs,
    starting from the identity transform. -/
def zoomAfter (evs : List ZoomEvent) : ZoomTransform :=
  evs.foldl applyZoomEvent zoomIdentity

/-- Rendering state touched by the zoom handler: the handler at line 41 sets
    the transform attribute of the `g` container and nothing else; the
    simulated node coordinates live outside it. -/
structure CanvasState where
  nodePositions : List (ℚ × ℚ)
  gTransform : ZoomTransform
deriving DecidableEq, Repr

/-- The zoom event handler (line 41): g.attr("transform", event.transform). -/
def zoomHandler (s : CanvasState) (t : ZoomTransform) : CanvasState :=
  { s with gTransform := t }

/-! ## Drag handlers and the tick integrator
    (GraphCanvas.tsx lines 133-148; d3-force simulation.tick position update). -/

/-- Per-node simulation state: position, velocity, optional pin (fx/fy). -/
structure SimNode where
  x : ℚ
  y : ℚ
  vx : ℚ
  vy : ℚ
  fx : Option ℚ
  fy : Option ℚ
deriving DecidableEq, Repr

/-- d3-force default velocityDecay multiplier (0.6); GraphCanvas leaves it
    at the default. -/
def velocityDecay : ℚ := 3 / 5

/-- Forces accumulate into the node's velocity during a tick; the individual
    force laws are abstracted into an arbitrary velocity increment. -/
def applyForce (dvx dvy : ℚ) (n : SimNode) : SimNode :=
  { n with vx := n.vx + dvx, vy := n.vy + dvy }

/-- The position update of d3-force simulation.tick():
    if fx is null, x += vx *= velocityDecay; else x = fx, vx = 0
    (and likewise for y). -/
def tickIntegrate (n : SimNode) : SimNode :=
  let px : ℚ × ℚ :=
    match n.fx with
    | none => (n.x + n.vx * velocityDecay, n.vx * velocityDecay)
    | some p => (p, 0)
  let py : ℚ × ℚ :=
    match n.fy with
    | none => (n.y + n.vy * velocityDecay, n.vy * velocityDecay)
    | some p => (p, 0)
  { x := px.1, y := py.1, vx := px.2, vy := py.2, fx := n.fx, fy := n.fy }

/-- dragstarted (lines 133-137): pin the node at its current position
    (it also raises alphaTarget to 0.3 on the simulation). -/
def dragstarted (n : SimNode) : SimNode :=
  { n with fx := some n.x, fy := some n.y }

/-- dragged (lines 139-142): pin the node at the latest pointer coordinates. -/
def dragged (px py : ℚ) (n : SimNode) : SimNode :=
  { n with fx := some px, fy := some py }

/-- dragended (lines 144-148): clear the pin (fx = fy = null). -/
def dragended (n : SimNode) : SimNode :=
  { n with fx := none, fy := none }

/-! ## Rendering (GraphCanvas.tsx lines 69-77 and 103-108). -/

/-- Attributes set on each link line (lines 73-77). -/
structure RenderedLink where
  stroke : String
  strokeWidth : ℚ
  markerEnd : String
deriving DecidableEq, Repr

/-- Line 76: .attr("stroke-width", d => Math.max(1, d.strength / 2)). -/
def renderLink (l : Link) : RenderedLink :=
  ⟨"#475569", max 1 (l.strength / 2), "url(#arrowhead)"⟩

/-- Attributes set on each node circle (lines 103-108). -/
structure RenderedCircle where
  r : ℚ
  fill : String
  stroke : String
  strokeWidth : ℚ
deriving DecidableEq, Repr

/-- Lines 103-108: radius 15, fill from TYPE_COLORS, stroke "#fff" when
    d.id === selectedNodeId and "none" otherwise. -/
def renderNodeCircle (n : Node) (selectedNodeId : Option String) : RenderedCircle :=
  ⟨15, TYPE_COLORS n.type,
    if some n.id = selectedNodeId then "#fff" else "none", 3⟩

/-! ## Link force parameters (GraphCanvas.tsx line 48, d3-force link.js).
    `.distance(150)` installs the constant distance function; `.strength` is
    never called, so the d3 default degree-normalized stiffness
    1 / min(count[source], count[target]) applies. -/

/-- The spring target distance function after `.distance(150)`: the constant
    150 for every link. -/
def linkDistanceOf : RLink → ℚ := fun _ => 150

/-- d3-force link.js count: each link increments the count of both its
    endpoints. -/
def linkCount (links : List RLink) (i : ℕ) : ℕ :=
  match links with
  | [] => 0
  | l :: ls =>
    (if l.source = i then 1 else 0) + (if l.target = i then 1 else 0) +
      linkCount ls i

/-- d3-force link.js defaultStrength:
    1 / min(count[link.source.index], count[link.target.index]). -/
def defaultLinkStrength (links : List RLink) (l : RLink) : ℚ :=
  1 / (min (linkCount links l.source) (linkCount links l.target) : ℚ)

/-- Replace a resolved link's strength field, leaving endpoints alone. -/
def setRStrength (s : ℚ) (l : RLink) : RLink := { l with strength := s }

/-! ## React effect semantics for GraphCanvas
    (useEffect with dependency array [data, onNodeClick, selectedNodeId],
    line 153).  React re-runs the effect whenever any dependency slot fails
    an Object.is comparison; on a re-run the previous cleanup executes first
    (stopping the old simulation) and the body then rebuilds everything
    (svg cleared line 33, fresh simulation lines 47-51). -/

structure EffectDeps where
  dataRef : ℕ
  onNodeClickRef : ℕ
  selectedNodeId : Option String
deriving DecidableEq, Repr

/-- React dependency comparison over the dep array
    [data, onNodeClick, selectedNodeId]. -/
def depsChanged (prev next : EffectDeps) : Bool :=
  prev.dataRef != next.dataRef
    || prev.onNodeClickRef != next.onNodeClickRef
    || prev.selectedNodeId != next.selectedNodeId

structure CommitResult where
  reran : Bool
  oldSim : SimState
  curSim : SimState
deriving DecidableEq, Repr

/-- One React commit for GraphCanvas: if any dependency changed the cleanup
    stops the mounted simulation and the effect body builds and starts a
    fresh one; otherwise nothing happens. -/
def commitEffect (prev next : EffectDeps) (mounted : SimState) : CommitResult :=
  if depsChanged prev next then ⟨true, stopSim mounted, freshSim⟩
  else ⟨false, mounted, mounted⟩

/-! ## Node initialization (d3-force simulation.js initializeNodes).
    A node with undefined coordinates is placed on the deterministic
    phyllotaxis spiral (radius 10·sqrt(0.5+i), angle i·pi·(3−sqrt 5));
    nodes that already carry coordinates keep them.  No randomness and no
    seed are involved anywhere: GraphCanvas passes data.nodes straight to
    d3.forceSimulation (line 47) with no random source configured. -/

/-- Per-node mutable fields before/after initializeNodes; `none` models an
    undefined (NaN) field. -/
structure SimNodeR where
  x : Option ℝ
  y : Option ℝ
  vx : Option ℝ
  vy : Option ℝ
  fx : Option ℝ
  fy : Option ℝ

noncomputable def initialRadius : ℝ := 10

noncomputable def initialAngle : ℝ := Real.pi * (3 - Real.sqrt 5)

noncomputable def phyllotaxisX (i : ℕ) : ℝ :=
  (initialRadius * Real.sqrt (1 / 2 + i)) * Real.cos (i * initialAngle)

noncomputable def phyllotaxisY (i : ℕ) : ℝ :=
  (initialRadius * Real.sqrt (1 / 2 + i)) * Real.sin (i * initialAngle)

/-- d3-force initializeNodes for the node at index i: apply the pin if any,
    place on the phyllotaxis spiral when coordinates are undefined, zero
    undefined velocities. -/
noncomputable def initializeNode (i : ℕ) (nd : SimNodeR) : SimNodeR :=
  let nd1 := match nd.fx with
    | some p => { nd with x := some p }
    | none => nd
  let nd2 := match nd1.fy with
    | some p => { nd1 with y := some p }
    | none => nd1
  let nd3 :=
    if nd2.x.isNone || nd2.y.isNone then
      { nd2 with x := some (phyllotaxisX i), y := some (phyllotaxisY i) }
    else nd2
  if nd3.vx.isNone || nd3.vy.isNone then { nd3 with vx := some 0, vy := some 0 }
  else nd3

/-- A node as handed over by the upstream analysis step: no coordinates,
    no velocity, no pin. -/
def blankSimNode : SimNodeR := ⟨none, none, none, none, none, none⟩

/-- Initial placement of a whole node list, with a purported seed argument:
    the component supplies no seed and d3's placement reads none, so the
    argument cannot influence the result. -/
noncomputable def placeNodesWithSeed (_seed : ℕ) (nds : List SimNodeR) : List SimNodeR :=
  (nds.enum).map (fun p => initializeNode p.1 p.2)

/-! ## Helper lemmas -/

theorem lookup_mem {sid : String} {j : ℕ} :
    ∀ {m : List (String × ℕ)}, List.lookup sid m = some j → (sid, j) ∈ m := by
  intro m
  induction m with
  | nil => intro h; simp [List.lookup] at h
  | cons p rest ih =>
    obtain ⟨k, v⟩ := p
    intro h
    cases hbeq : sid == k with
    | true =>
      rw [List.lookup, hbeq] at h
      have hk : sid = k := eq_of_beq hbeq
      have hv : v = j := by injection h
      subst hk; subst hv
      exact List.mem_cons_self _ _
    | false =>
      rw [List.lookup, hbeq] at h
      exact List.mem_cons_of_mem _ (ih h)

theorem lookup_none_keys {sid : String} :
    ∀ {m : List (String × ℕ)}, List.lookup sid m = none →
      sid ∉ m.map Prod.fst := by
  intro m
  induction m with
  | nil => intro _ h; simp at h
  | cons p rest ih =>
    obtain ⟨k, v⟩ := p
    intro h hmem
    cases hbeq : sid == k with
    | true => rw [List.lookup, hbeq] at h; exact Option.noConfusion h
    | false =>
      rw [List.lookup, hbeq] at h
      rcases List.mem_cons.mp hmem with heq | hrest
      · have : sid = k := heq
        rw [this] at hbeq
        simp at hbeq
      · exact ih h hrest

theorem indexPairs_mem_lt :
    ∀ (ns : List Node) (i : ℕ) {p : String × ℕ},
      p ∈ indexPairs ns i → p.2 < i + ns.length := by
  intro ns
  induction ns with
  | nil => intro i p h; simp [indexPairs] at h
  | cons n rest ih =>
    intro i p h
    rw [indexPairs] at h
    rcases List.mem_cons.mp h with heq | hrest
    · rw [heq]; simp
    · have := ih (i + 1) hrest
      simp at this ⊢
      omega

theorem indexPairs_keys :
    ∀ (ns : List Node) (i : ℕ),
      (indexPairs ns i).map Prod.fst = ns.map Node.id := by
  intro ns
  induction ns with
  | nil => intro i; rfl
  | cons n rest ih => intro i; simp [indexPairs, ih]

theorem findNode_ok_lt {nodes : List Node} {sid : String} {j : ℕ}
    (h : findNode (nodeById nodes) sid = .ok j) : j < nodes.length := by
  cases hl : List.lookup sid (nodeById nodes) with
  | none => simp [findNode, hl] at h
  | some v =>
    simp [findNode, hl] at h
    subst h
    have hmem : (sid, v) ∈ nodeById nodes := lookup_mem hl
    rw [nodeById, List.mem_reverse] at hmem
    have := indexPairs_mem_lt nodes 0 hmem
    simpa using this

theorem findNode_error_spec {nodes : List Node} {sid : String} {e : String}
    (h : findNode (nodeById nodes) sid = .error e) :
    e = "node not found: " ++ sid ∧ ∀ n ∈ nodes, n.id ≠ sid := by
  cases hl : List.lookup sid (nodeById nodes) with
  | some v => simp [findNode, hl] at h
  | none =>
    simp [findNode, hl] at h
    refine ⟨h.symm, ?_⟩
    intro n hn hid
    have hkeys : sid ∉ (nodeById nodes).map Prod.fst := lookup_none_keys hl
    rw [nodeById, List.map_reverse, List.mem_reverse, indexPairs_keys] at hkeys
    exact hkeys (hid ▸ List.mem_map_of_mem Node.id hn)

theorem resolve_spec (nodes : List Node) :
    ∀ links : List Link,
      (∃ rls, resolveLinks (nodeById nodes) links = .ok rls ∧
        ∀ rl ∈ rls, rl.source < nodes.length ∧ rl.target < nodes.length) ∨
      (∃ bad, resolveLinks (nodeById nodes) links =
          .error ("node not found: " ++ bad) ∧
        (∀ n ∈ nodes, n.id ≠ bad) ∧ ∃ l ∈ links, l.source = bad ∨ l.target = bad) := by
  intro links
  induction links with
  | nil => exact Or.inl ⟨[], rfl, by simp⟩
  | cons l ls ih =>
    cases hs : findNode (nodeById nodes) l.source with
    | error e =>
      obtain ⟨he, hnot⟩ := findNode_error_spec hs
      refine Or.inr ⟨l.source, ?_, hnot, l, List.mem_cons_self _ _, Or.inl rfl⟩
      simp [resolveLinks, hs, he]
    | ok s =>
      cases ht : findNode (nodeById nodes) l.target with
      | error e =>
        obtain ⟨he, hnot⟩ := findNode_error_spec ht
        refine Or.inr ⟨l.target, ?_, hnot, l, List.mem_cons_self _ _, Or.inr rfl⟩
        simp [resolveLinks, hs, ht, he]
      | ok t =>
        rcases ih with ⟨rls, hr, hb⟩ | ⟨bad, hr, hnot, lw, hlw, hor⟩
        · refine Or.inl ⟨⟨s, t, l.label, l.strength⟩ :: rls, ?_, ?_⟩
          · simp [resolveLinks, hs, ht, hr]
          · intro rl hrl
            rcases List.mem_cons.mp hrl with heq | hmem
            · rw [heq]; exact ⟨findNode_ok_lt hs, findNode_ok_lt ht⟩
            · exact hb rl hmem
        · refine Or.inr ⟨bad, ?_, hnot, lw, List.mem_cons_of_mem _ hlw, hor⟩
          simp [resolveLinks, hs, ht, hr]

theorem stepSim_stopped {d : ℚ} {s : SimState} (h : s.stopped = true) :
    stepSim d s = s := by
  simp [stepSim, h]

theorem alphaDecayDefault_mem :
    0 < alphaDecayDefault ∧ alphaDecayDefault < 1 := by
  have h1 : (1 / 1000 : ℝ) ^ ((1 : ℝ) / 300) < 1 :=
    Real.rpow_lt_one (by norm_num) (by norm_num) (by norm_num)
  have h2 : 0 < (1 / 1000 : ℝ) ^ ((1 : ℝ) / 300) :=
    Real.rpow_pos_of_pos (by norm_num) _
  constructor
  · rw [alphaDecayDefault]; linarith
  · rw [alphaDecayDefault]; linarith

theorem simRun_succ (d : ℚ) (n : ℕ) :
    simRun d (n + 1) = stepSim d (simRun d n) :=
  Function.iterate_succ_apply' _ _ _

theorem simRun_target (d : ℚ) : ∀ n, (simRun d n).alphaTarget = 0 := by
  intro n
  induction n with
  | zero => rfl
  | succ n ih =>
    rw [simRun_succ, stepSim]
    split
    · exact ih
    · simpa using ih

theorem simRun_alpha_nonneg {d : ℚ} (hd1 : d < 1) :
    ∀ n, 0 ≤ (simRun d n).alpha := by
  intro n
  induction n with
  | zero => norm_num [simRun, freshSim]
  | succ n ih =>
    rw [simRun_succ, stepSim]
    split
    · exact ih
    · have ht := simRun_target d n
      simp only [ht]
      have : (simRun d n).alpha + (0 - (simRun d n).alpha) * d
          = (simRun d n).alpha * (1 - d) := by ring
      rw [this]
      exact mul_nonneg ih (by linarith)

theorem simRun_stopped_persists {d : ℚ} {n : ℕ}
    (h : (simRun d n).stopped = true) : (simRun d (n + 1)).stopped = true := by
  rw [simRun_succ, stepSim_stopped h]
  exact h

theorem simRun_alpha_closed {d : ℚ} :
    ∀ n, (simRun d n).stopped = false → (simRun d n).alpha = (1 - d) ^ n := by
  intro n
  induction n with
  | zero => intro _; norm_num [simRun, freshSim]
  | succ n ih =>
    intro h
    have hprev : (simRun d n).stopped = false := by
      cases hp : (simRun d n).stopped with
      | false => rfl
      | true => rw [simRun_stopped_persists hp] at h; exact absurd h (by simp)
    rw [simRun_succ, stepSim, hprev]
    simp only [Bool.false_eq_true, if_false]
    have ht := simRun_target d n
    have ha := ih hprev
    simp only [ht, ha]
    ring

theorem simRun_geometric {d : ℚ} :
    ∀ n, (simRun d n).stopped = false →
      (simRun d (n + 1)).alpha = (simRun d n).alpha * (1 - d) := by
  intro n h
  rw [simRun_succ, stepSim, h]
  simp only [Bool.false_eq_true, if_false]
  have ht := simRun_target d n
  simp only [ht]
  ring

theorem simRun_running_ge {d : ℚ} :
    ∀ n, (simRun d (n + 1)).stopped = false → alphaMin ≤ (simRun d (n + 1)).alpha := by
  intro n h
  have hprev : (simRun d n).stopped = false := by
    cases hp : (simRun d n).stopped with
    | false => rfl
    | true => rw [simRun_stopped_persists hp] at h; exact absurd h (by simp)
  rw [simRun_succ, stepSim, hprev] at h ⊢
  simp only [Bool.false_eq_true, if_false] at h ⊢
  simp only [decide_eq_false_iff_not, not_lt] at h
  exact h

theorem simRun_monotone {d : ℚ} (hd0 : 0 < d) (hd1 : d < 1) :
    ∀ n, (simRun d (n + 1)).alpha ≤ (simRun d n).alpha := by
  intro n
  cases hp : (simRun d n).stopped with
  | true => rw [simRun_succ, stepSim_stopped hp]
  | false =>
    rw [simRun_geometric n hp]
    have ha := simRun_alpha_nonneg hd1 n
    nlinarith

theorem simRun_halts {d : ℚ} (hd0 : 0 < d) (hd1 : d < 1) :
    ∃ n, (simRun d n).stopped = true := by
  obtain ⟨n₀, hn₀⟩ := exists_pow_lt_of_lt_one
    (show (0 : ℚ) < alphaMin by norm_num [alphaMin])
    (show 1 - d < 1 by linarith)
  refine ⟨n₀ + 1, ?_⟩
  by_contra hne
  have hstop : (simRun d (n₀ + 1)).stopped = false := by
    cases h : (simRun d (n₀ + 1)).stopped with
    | false => rfl
    | true => exact absurd h hne
  have hge := simRun_running_ge n₀ hstop
  have hcl := simRun_alpha_closed (n₀ + 1) hstop
  have hle : (1 - d) ^ (n₀ + 1) ≤ (1 - d) ^ n₀ :=
    pow_le_pow_of_le_one (by linarith) (by linarith) (Nat.le_succ n₀)
  rw [hcl] at hge
  linarith

theorem simRun_halt_condition {d : ℚ} :
    ∀ n, (simRun d n).stopped = false →
      ((simRun d (n + 1)).stopped = true ↔ (simRun d (n + 1)).alpha < alphaMin) := by
  intro n h
  rw [simRun_succ, stepSim, h]
  simp only [Bool.false_eq_true, if_false]
  simp [decide_eq_true_iff]

theorem zoom_scale_invariant :
    ∀ (evs : List ZoomEvent) (t : ZoomTransform),
      scaleExtentLo ≤ t.k → t.k ≤ scaleExtentHi →
      scaleExtentLo ≤ (evs.foldl applyZoomEvent t).k ∧
        (evs.foldl applyZoomEvent t).k ≤ scaleExtentHi := by
  intro evs
  induction evs with
  | nil => intro t h1 h2; exact ⟨h1, h2⟩
  | cons ev rest ih =>
    intro t h1 h2
    rw [List.foldl_cons]
    cases ev with
    | scaleBy f p =>
      apply ih
      · simp only [applyZoomEvent, translateTo, constrainScale]
        exact le_max_left _ _
      · simp only [applyZoomEvent, translateTo, constrainScale]
        exact max_le (by norm_num [scaleExtentLo, scaleExtentHi]) (min_le_left _ _)
    | pan p0 p1 =>
      apply ih
      · simpa [applyZoomEvent, translateTo] using h1
      · simpa [applyZoomEvent, translateTo] using h2

theorem linkCount_map_setRStrength (s : ℚ) :
    ∀ (links : List RLink) (i : ℕ),
      linkCount (links.map (setRStrength s)) i = linkCount links i := by
  intro links i
  induction links with
  | nil => rfl
  | cons l ls ih => simp [linkCount, setRStrength, ih]

/-! ## Claim theorems -/

def gdDangling : GraphData :=
  ⟨[⟨"a", "A", .concept, "d"⟩], [⟨"a", "missing", "rel", 5⟩]⟩

/-- Claim C1 counterexample: on a concrete graph with one node and a link
    whose target id "missing" is dangling, construction does fail with a
    validation error naming the offending id — but the simulation started by
    d3.forceSimulation(data.nodes) earlier in the same chain is leaked in a
    started state (not stopped), and a subsequent stepper frame still runs a
    tick on it.  So a partial simulation IS started, refuting the claim's
    "no partial simulation is started". -/
theorem dangling_link_leaks_started_simulation :
    construct gdDangling = .failed ("node not found: " ++ "missing") freshSim ∧
    freshSim.stopped = false ∧
    (stepSim (1 / 100) freshSim).ticks = 1 ∧
    (stepSim (1 / 100) freshSim).stopped = false := by
  refine ⟨by decide, rfl, by norm_num [stepSim, freshSim, alphaMin],
    by norm_num [stepSim, freshSim, alphaMin]⟩

/-- Claim C1 (amended): for every GraphData with a non-empty node list,
    construction either succeeds with every link's source/target resolved to
    a node index present in the node list, or fails during the synchronous
    construction chain — before the tick handler is attached — with a
    validation error naming the offending dangling id; in the failure case
    the simulation already created and started by d3.forceSimulation leaks
    in a running (never-stopped) state, since neither the tick handler nor
    the effect cleanup was ever registered. -/
theorem construct_resolves_or_fails_fast (gd : GraphData) (_hne : gd.nodes ≠ []) :
    (∃ e, construct gd = .ok e ∧
      ∀ rl ∈ e.links, rl.source < gd.nodes.length ∧ rl.target < gd.nodes.length) ∨
    (∃ bad, construct gd = .failed ("node not found: " ++ bad) freshSim ∧
      (∀ n ∈ gd.nodes, n.id ≠ bad) ∧
      (∃ l ∈ gd.links, l.source = bad ∨ l.target = bad) ∧
      freshSim.stopped = false) := by
  rcases resolve_spec gd.nodes gd.links with ⟨rls, hr, hb⟩ | ⟨bad, hr, hnot, hex⟩
  · exact Or.inl ⟨⟨gd.nodes, rls, freshSim⟩, by simp [construct, hr], hb⟩
  · exact Or.inr ⟨bad, by simp [construct, hr], hnot, hex, rfl⟩

def gdWitness : GraphData :=
  ⟨[⟨"a", "A", .concept, "d"⟩], [⟨"a", "a", "self", 5⟩]⟩

/-- Witness for the amended C1 at a concrete one-node graph with a self
    link. -/
theorem construct_resolves_or_fails_fast_witness :
    gdWitness.nodes ≠ [] ∧
    ((∃ e, construct gdWitness = .ok e ∧
      ∀ rl ∈ e.links,
        rl.source < gdWitness.nodes.length ∧ rl.target < gdWitness.nodes.length) ∨
    (∃ bad, construct gdWitness = .failed ("node not found: " ++ bad) freshSim ∧
      (∀ n ∈ gdWitness.nodes, n.id ≠ bad) ∧
      (∃ l ∈ gdWitness.links, l.source = bad ∨ l.target = bad) ∧
      freshSim.stopped = false)) :=
  ⟨by simp [gdWitness],
   construct_resolves_or_fails_fast gdWitness (by simp [gdWitness])⟩

def depsPrev : EffectDeps := ⟨0, 0, none⟩

def depsNext : EffectDeps := ⟨0, 0, some "n1"⟩

def midSim : SimState :=
  { alpha := 1 / 2, alphaTarget := 0, stopped := false, ticks := 7 }

/-- Claim C2 counterexample: with the same data and callback references and
    only the selected-node id changed, the GraphCanvas effect re-runs — the
    mounted simulation is stopped (torn down) and a fresh simulation with
    alpha reset to 1 and zero ticks is built and started.  This contradicts
    the claim that a selection-only change never tears down, rebuilds or
    restarts the simulation. -/
theorem selection_change_rebuilds_counterexample :
    depsPrev.dataRef = depsNext.dataRef ∧
    depsPrev.onNodeClickRef = depsNext.onNodeClickRef ∧
    depsPrev.selectedNodeId ≠ depsNext.selectedNodeId ∧
    (commitEffect depsPrev depsNext midSim).reran = true ∧
    (commitEffect depsPrev depsNext midSim).oldSim.stopped = true ∧
    (commitEffect depsPrev depsNext midSim).curSim.alpha = 1 ∧
    (commitEffect depsPrev depsNext midSim).curSim.ticks = 0 := by
  refine ⟨rfl, rfl, by decide, ?_, ?_, ?_, ?_⟩ <;> rfl

/-- Claim C2 (amended): because selectedNodeId is in the effect dependency
    array, any selection-only change (same GraphData object, same callback)
    re-runs the effect: the previous simulation is stopped, and a fresh
    simulation (alpha = 1, restarted) is built; the highlight state is
    recomputed in the rebuild.  Node positions and velocities survive only
    because the same node objects are re-used: d3's initializeNodes leaves
    already-initialized coordinates, velocities and pins untouched. -/
theorem selection_change_rebuild_spec (p q : EffectDeps) (s : SimState)
    (_hdata : p.dataRef = q.dataRef) (_hcb : p.onNodeClickRef = q.onNodeClickRef)
    (hsel : p.selectedNodeId ≠ q.selectedNodeId) :
    (commitEffect p q s).reran = true ∧
    (commitEffect p q s).oldSim = stopSim s ∧
    (commitEffect p q s).curSim = freshSim ∧
    (∀ (i : ℕ) (nd : SimNodeR) (a b c e : ℝ),
      nd.fx = none → nd.fy = none → nd.x = some a → nd.y = some b →
      nd.vx = some c → nd.vy = some e →
      initializeNode i nd = nd) := by
  have hch : depsChanged p q = true := by
    simp [depsChanged, bne_iff_ne, hsel]
  refine ⟨by simp [commitEffect, hch], by simp [commitEffect, hch],
    by simp [commitEffect, hch], ?_⟩
  intro i nd a b c e hfx hfy hx hy hvx hvy
  simp [initializeNode, hfx, hfy, hx, hy, hvx, hvy]

/-- Witness for the amended C2 at concrete dependency values and a concrete
    already-initialized node. -/
theorem selection_change_rebuild_spec_witness :
    (depsPrev.dataRef = depsNext.dataRef ∧
     depsPrev.onNodeClickRef = depsNext.onNodeClickRef ∧
     depsPrev.selectedNodeId ≠ depsNext.selectedNodeId) ∧
    ((commitEffect depsPrev depsNext midSim).reran = true ∧
     (commitEffect depsPrev depsNext midSim).oldSim = stopSim midSim ∧
     (commitEffect depsPrev depsNext midSim).curSim = freshSim ∧
     (∀ (i : ℕ) (nd : SimNodeR) (a b c e : ℝ),
       nd.fx = none → nd.fy = none → nd.x = some a → nd.y = some b →
       nd.vx = some c → nd.vy = some e →
       initializeNode i nd = nd)) :=
  ⟨⟨rfl, rfl, by decide⟩,
   selection_change_rebuild_spec depsPrev depsNext midSim rfl rfl (by decide)⟩

/-- Claim C3: for every sequence of pan/zoom input events, of any factor
    magnitude or sign, the viewport transform's uniform scale stays within
    [0.1, 4.0], and applying the transform (the zoom handler) leaves every
    simulated node coordinate unchanged. -/
theorem zoom_clamped_and_nodes_untouched (evs : List ZoomEvent) (cs : CanvasState) :
    scaleExtentLo ≤ (zoomAfter evs).k ∧ (zoomAfter evs).k ≤ scaleExtentHi ∧
    (zoomHandler cs (zoomAfter evs)).nodePositions = cs.nodePositions := by
  obtain ⟨h1, h2⟩ := zoom_scale_invariant evs zoomIdentity
    (by norm_num [zoomIdentity, scaleExtentLo])
    (by norm_num [zoomIdentity, scaleExtentHi])
  exact ⟨h1, h2, rfl⟩

/-- Claim C4: each link's rendered stroke width equals max(1, strength/2),
    and a node circle is rendered highlighted (white stroke) iff its id
    equals the externally supplied selected id. -/
theorem link_weight_and_highlight (l : Link) (n : Node) (sel : Option String) :
    (renderLink l).strokeWidth = max 1 (l.strength / 2) ∧
    ((renderNodeCircle n sel).stroke = "#fff" ↔ some n.id = sel) := by
  refine ⟨rfl, ?_⟩
  by_cases h : some n.id = sel
  · simp [renderNodeCircle, h]
  · simp [renderNodeCircle, h]

/-- Claim C5: while a node is dragged, each pointer-move pins it at the
    pointer coordinates and the next tick places it exactly there with zero
    velocity, whatever force increments accumulated; pointer-up clears the
    pin, after which the tick integrates position from forces again. -/
theorem drag_pins_position (n : SimNode) (px py dvx dvy : ℚ) :
    (tickIntegrate (applyForce dvx dvy (dragged px py n))).x = px ∧
    (tickIntegrate (applyForce dvx dvy (dragged px py n))).y = py ∧
    (tickIntegrate (applyForce dvx dvy (dragged px py n))).vx = 0 ∧
    (tickIntegrate (applyForce dvx dvy (dragged px py n))).vy = 0 ∧
    (dragended (dragged px py n)).fx = none ∧
    (dragended (dragged px py n)).fy = none ∧
    (tickIntegrate (applyForce dvx dvy (dragended n))).x
      = n.x + (n.vx + dvx) * velocityDecay ∧
    (tickIntegrate (applyForce dvx dvy (dragended n))).y
      = n.y + (n.vy + dvy) * velocityDecay :=
  ⟨rfl, rfl, rfl, rfl, rfl, rfl, rfl, rfl⟩

/-- Claim C6: with alphaTarget at its resting value 0 (no drag input) and a
    decay rate in (0,1), alpha starts at 1, decays geometrically
    (alpha := alpha * (1 - decay)) while running, is monotonically
    non-increasing across ticks, the stepper eventually stops, and it stops
    after a tick exactly when that tick brought alpha below alphaMin — a
    convergence condition, not a tick counter. -/
theorem simulation_alpha_schedule (d : ℚ) (hd0 : 0 < d) (hd1 : d < 1) :
    (simRun d 0).alpha = 1 ∧
    (∀ n, (simRun d n).stopped = false →
      (simRun d (n + 1)).alpha = (simRun d n).alpha * (1 - d)) ∧
    (∀ n, (simRun d (n + 1)).alpha ≤ (simRun d n).alpha) ∧
    (∀ n, (simRun d n).stopped = false →
      ((simRun d (n + 1)).stopped = true ↔ (simRun d (n + 1)).alpha < alphaMin)) ∧
    (∃ n, (simRun d n).stopped = true) :=
  ⟨rfl, fun n h => simRun_geometric n h, simRun_monotone hd0 hd1,
   fun n h => simRun_halt_condition n h, simRun_halts hd0 hd1⟩

/-- Witness for C6 at the concrete decay rate 1/2. -/
theorem simulation_alpha_schedule_witness :
    ((0 : ℚ) < 1 / 2 ∧ (1 / 2 : ℚ) < 1) ∧
    ((simRun (1 / 2) 0).alpha = 1 ∧
    (∀ n, (simRun (1 / 2) n).stopped = false →
      (simRun (1 / 2) (n + 1)).alpha = (simRun (1 / 2) n).alpha * (1 - 1 / 2)) ∧
    (∀ n, (simRun (1 / 2) (n + 1)).alpha ≤ (simRun (1 / 2) n).alpha) ∧
    (∀ n, (simRun (1 / 2) n).stopped = false →
      ((simRun (1 / 2) (n + 1)).stopped = true ↔
        (simRun (1 / 2) (n + 1)).alpha < alphaMin)) ∧
    (∃ n, (simRun (1 / 2) n).stopped = true)) :=
  ⟨⟨by norm_num, by norm_num⟩,
   simulation_alpha_schedule (1 / 2) (by norm_num) (by norm_num)⟩

/-- Claim C7: the link force's spring target distance is the constant 150
    for every link, unchanged by the link's strength value; the default
    degree-normalized stiffness is likewise independent of strength, while
    the rendered line weight is what strength feeds. -/
theorem link_distance_constant (links : List RLink) (l : RLink) (lk : Link) (s : ℚ) :
    linkDistanceOf l = 150 ∧
    linkDistanceOf (setRStrength s l) = linkDistanceOf l ∧
    defaultLinkStrength (links.map (setRStrength s)) (setRStrength s l)
      = defaultLinkStrength links l ∧
    (renderLink { lk with strength := s }).strokeWidth = max 1 (s / 2) := by
  refine ⟨rfl, rfl, ?_, rfl⟩
  simp [defaultLinkStrength, setRStrength, linkCount_map_setRStrength]

/-- Claim C8 counterexample: the construction exposes no caller seed at all —
    placement with any two purported seeds is identical, so initial positions
    are not derived from a caller-seedable pseudo-random source. -/
theorem placement_not_seedable :
    placeNodesWithSeed 0 [blankSimNode] = placeNodesWithSeed 1 [blankSimNode] ∧
    ¬ ∃ (s1 s2 : ℕ) (nds : List SimNodeR),
        placeNodesWithSeed s1 nds ≠ placeNodesWithSeed s2 nds :=
  ⟨rfl, fun ⟨_, _, _, h⟩ => h rfl⟩

/-- Claim C8 (amended): runs on identical GraphData are reproducible because
    initial placement is the fixed deterministic phyllotaxis pattern,
    independent of any purported seed: a blank node at index i is placed at
    (phyllotaxisX i, phyllotaxisY i) with zero velocity. -/
theorem placement_deterministic_seed_independent :
    (∀ (s1 s2 : ℕ) (nds : List SimNodeR),
      placeNodesWithSeed s1 nds = placeNodesWithSeed s2 nds) ∧
    (∀ i, (initializeNode i blankSimNode).x = some (phyllotaxisX i) ∧
      (initializeNode i blankSimNode).y = some (phyllotaxisY i) ∧
      (initializeNode i blankSimNode).vx = some 0 ∧
      (initializeNode i blankSimNode).vy = some 0) :=
  ⟨fun _ _ _ => rfl, fun _ => ⟨rfl, rfl, rfl, rfl⟩⟩

/-- Claim C9: the engine exposes stop(), the effect cleanup invokes it, and
    once stopped no later stepper frame changes the state or runs a tick:
    after teardown the tick count never advances. -/
theorem stop_halts_tick_loop (d : ℚ) (s : SimState) (n : ℕ) :
    (effectCleanup s).stopped = true ∧
    Nat.iterate (stepSim d) n (effectCleanup s) = effectCleanup s ∧
    (Nat.iterate (stepSim d) n (effectCleanup s)).ticks = s.ticks := by
  have hstop : (effectCleanup s).stopped = true := rfl
  have hiter : ∀ m, Nat.iterate (stepSim d) m (effectCleanup s) = effectCleanup s := by
    intro m
    induction m with
    | zero => rfl
    | succ m ih => rw [Function.iterate_succ_apply', ih, stepSim_stopped hstop]
  exact ⟨hstop, hiter n, by rw [hiter n]; rfl⟩

/-- Claim C10: with an empty node list the effect is a no-op — no simulation
    is constructed and no dangling-link validation runs, even when the link
    list is non-empty. -/
theorem empty_nodes_effect_noop (svgPresent : Bool) (gd : GraphData)
    (h : gd.nodes = []) : runEffect svgPresent gd = .noop := by
  simp [runEffect, h]

def gdEmptyNodes : GraphData := ⟨[], [⟨"a", "b", "rel", 5⟩]⟩

/-- Witness for C10: empty node list, one (dangling) link. -/
theorem empty_nodes_effect_noop_witness :
    gdEmptyNodes.nodes = [] ∧ runEffect true gdEmptyNodes = .noop :=
  ⟨rfl, empty_nodes_effect_noop true gdEmptyNodes rfl⟩
